import Mathlib

/-!
Verification of the simulated equities-trading backend
(instrument registry, order execution engine, portfolio ledger,
order lifecycle manager) against its natural-language specification.

All JavaScript numbers are modelled as exact rationals (`ℚ`); the
in-memory maps of `memoryStore.js` are modelled as association lists
keyed the way the source keys them.  Randomness (`Math.random()`) is
modelled as an explicit parameter `r ∈ [0, 1)`.  JavaScript exceptions
are modelled with `Except`, where the error value also carries the
store state at the moment of the throw (in-place mutations performed
before a throw persist, exactly as in the source).
-/

namespace Bajaj

/-- Order side, from `constants.js` `ORDER_TYPES`. -/
inductive OrderType where
  | BUY
  | SELL
deriving DecidableEq, Repr

/-- Order style, from `constants.js` `ORDER_STYLES`. -/
inductive OrderStyle where
  | MARKET
  | LIMIT
deriving DecidableEq, Repr

/-- Order status, from `constants.js` `ORDER_STATUSES`. -/
inductive OrderStatus where
  | NEW
  | PLACED
  | EXECUTED
  | CANCELLED
deriving DecidableEq, Repr

/-- An instrument record as seeded and stored by `memoryStore.js`. -/
structure Instrument where
  symbol : String
  exchange : String
  instrumentType : String
  lastTradedPrice : ℚ
  companyName : String
deriving DecidableEq, Repr

/-- An order record as created by `memoryStore.createOrder` and mutated by
`updateOrderStatus`.  `price` is the optional limit price of the request
(absent for MARKET orders); `executedPrice`/`executedQuantity` are set only
on execution.  Timestamps are irrelevant to the verified properties and
are omitted. -/
structure Order where
  id : String
  userId : String
  symbol : String
  orderType : OrderType
  orderStyle : OrderStyle
  quantity : ℚ
  price : Option ℚ
  status : OrderStatus
  executedPrice : Option ℚ
  executedQuantity : Option ℚ
deriving DecidableEq, Repr

/-- A trade record as built by `tradeService.createTrade`
(`totalAmount = quantity * price`).  The random human-readable trade
reference and timestamps are omitted. -/
structure Trade where
  orderId : String
  userId : String
  symbol : String
  orderType : OrderType
  quantity : ℚ
  price : ℚ
  totalAmount : ℚ
deriving DecidableEq, Repr

/-- A portfolio holding, keyed by (userId, symbol), as stored by
`memoryStore.updatePortfolio`. -/
structure Holding where
  userId : String
  symbol : String
  quantity : ℚ
  totalInvestment : ℚ
  averagePrice : ℚ
deriving DecidableEq, Repr

/-- The whole in-memory store of `memoryStore.js`: the four `Map`s,
modelled as lists keyed respectively by symbol, order id, insertion
order, and (userId, symbol). -/
structure Store where
  instruments : List Instrument
  orders : List Order
  trades : List Trade
  portfolio : List Holding
deriving DecidableEq, Repr

/-- `Math.round(x * 100) / 100`: round to 2 decimal places, ties away
from negative infinity, as used throughout `helpers.js`. -/
def round2 (x : ℚ) : ℚ := (round (x * 100) : ℚ) / 100

/-- JavaScript `String.prototype.toUpperCase()` on the ASCII symbols of
this system: uppercase each character.  (Stated over the character list
so that it is structurally recursive.) -/
def jsToUpper (s : String) : String := ⟨s.data.map Char.toUpper⟩

/-- JavaScript `String.prototype.toLowerCase()` on the ASCII symbols of
this system: lowercase each character. -/
def jsToLower (s : String) : String := ⟨s.data.map Char.toLower⟩

/-- JavaScript `a <= b` where `b` may be `undefined` (comparison with
`undefined` is false). -/
def jsLeOpt (a : ℚ) : Option ℚ → Bool
  | some b => decide (a ≤ b)
  | none => false

/-- JavaScript `a >= b` where `b` may be `undefined` (comparison with
`undefined` is false). -/
def jsGeOpt (a : ℚ) : Option ℚ → Bool
  | some b => decide (b ≤ a)
  | none => false

/-- `helpers.js` `canExecuteLimitOrder(order, currentMarketPrice)`:
non-LIMIT (i.e. MARKET) orders are always executable; a LIMIT BUY
executes when `currentMarketPrice <= order.price`; otherwise (LIMIT
SELL) when `currentMarketPrice >= order.price`. -/
def canExecuteLimitOrder (order : Order) (currentMarketPrice : ℚ) : Bool :=
  if order.orderStyle ≠ OrderStyle.LIMIT then
    true
  else if order.orderType = OrderType.BUY then
    jsLeOpt currentMarketPrice order.price
  else
    jsGeOpt currentMarketPrice order.price

/-- `helpers.js` `calculateExecutionPrice(order, currentMarketPrice)`.
The call to `Math.random()` is modelled by the parameter `r` (ranging
over `[0,1)`), so the MARKET slippage is `(r - 0.5) * 0.002`.  LIMIT
orders fill at `order.price` (which placement guarantees to be present;
a missing price is read as 0 here). -/
def calculateExecutionPrice (order : Order) (currentMarketPrice : ℚ) (r : ℚ) : ℚ :=
  if order.orderStyle = OrderStyle.MARKET then
    round2 (currentMarketPrice * (1 + (r - 1/2) * (2/1000)))
  else
    order.price.getD 0

/-- The fresh holding `memoryStore.updatePortfolio` builds when no entry
exists for the key `userId_symbol`. -/
def emptyHolding (userId symbol : String) : Holding :=
  { userId := userId, symbol := symbol, quantity := 0, totalInvestment := 0, averagePrice := 0 }

/-- The calculation block of `memoryStore.updatePortfolio` applied to a
single holding.  BUY accumulates cost basis and recomputes the average;
SELL clamps the quantity at 0 and, when the quantity reaches exactly 0,
resets `totalInvestment` and `averagePrice` to 0 (otherwise it leaves
both unchanged). -/
def applyFillToHolding (holding : Holding) (quantity price : ℚ) (orderType : OrderType) : Holding :=
  match orderType with
  | OrderType.BUY =>
    let totalInvestment := holding.totalInvestment + quantity * price
    let totalQuantity := holding.quantity + quantity
    { holding with
        quantity := totalQuantity
        totalInvestment := totalInvestment
        averagePrice := totalInvestment / totalQuantity }
  | OrderType.SELL =>
    let newQuantity := max 0 (holding.quantity - quantity)
    if newQuantity = 0 then
      { holding with quantity := newQuantity, totalInvestment := 0, averagePrice := 0 }
    else
      { holding with quantity := newQuantity }

/-- One portfolio fill (side, quantity, price), as passed to
`memoryStore.updatePortfolio` for a single (user, symbol) key. -/
structure Fill where
  orderType : OrderType
  quantity : ℚ
  price : ℚ
deriving DecidableEq, Repr

/-- A sequence of fills applied to one holding, in order. -/
def applyFills (holding : Holding) (fills : List Fill) : Holding :=
  fills.foldl (fun h f => applyFillToHolding h f.quantity f.price f.orderType) holding

/-- `memoryStore.getInstrumentBySymbol(symbol)`. -/
def Store.getInstrumentBySymbol (st : Store) (symbol : String) : Option Instrument :=
  st.instruments.find? (fun i => i.symbol = symbol)

/-- `memoryStore.updateInstrumentPrice(symbol, price)`: sets the stored
`lastTradedPrice` and returns `true` when the symbol is known, returns
`false` (and changes nothing) otherwise. -/
def Store.updateInstrumentPrice (st : Store) (symbol : String) (price : ℚ) : Bool × Store :=
  match st.getInstrumentBySymbol symbol with
  | some _ =>
    (true,
      { st with instruments :=
          st.instruments.map (fun i =>
            if i.symbol = symbol then { i with lastTradedPrice := price } else i) })
  | none => (false, st)

/-- `memoryStore.getOrderById(orderId)`. -/
def Store.getOrderById (st : Store) (orderId : String) : Option Order :=
  st.orders.find? (fun o => o.id = orderId)

/-- The truthiness guard of `memoryStore.updateOrderStatus`: a field of
`executionData` overwrites the stored one only when it is present and
truthy (a number is truthy iff nonzero). -/
def setIfTruthy (fresh old : Option ℚ) : Option ℚ :=
  match fresh with
  | some v => if v = 0 then old else some v
  | none => old

/-- `memoryStore.updateOrderStatus(orderId, status, executionData)`:
returns the updated order and the new store, or `none` leaving the store
unchanged when the order id is unknown. -/
def Store.updateOrderStatus (st : Store) (orderId : String) (status : OrderStatus)
    (executedPrice executedQuantity : Option ℚ) : Option Order × Store :=
  match st.getOrderById orderId with
  | none => (none, st)
  | some o =>
    let o' := { o with
        status := status
        executedPrice := setIfTruthy executedPrice o.executedPrice
        executedQuantity := setIfTruthy executedQuantity o.executedQuantity }
    (some o', { st with orders := st.orders.map (fun x => if x.id = orderId then o' else x) })

/-- `memoryStore.createOrder(orderData)`: appends the new order. The
uuid generation is irrelevant here; the caller supplies the id. -/
def Store.createOrder (st : Store) (o : Order) : Order × Store :=
  (o, { st with orders := st.orders ++ [o] })

/-- `memoryStore.createTrade(tradeData)`: appends the new trade record. -/
def Store.createTrade (st : Store) (t : Trade) : Trade × Store :=
  (t, { st with trades := st.trades ++ [t] })

/-- Writes a holding back under its `userId_symbol` key (the `Map.set`
at the end of `memoryStore.updatePortfolio`): replaces the existing
entry or appends a new one. -/
def setHolding (l : List Holding) (h : Holding) : List Holding :=
  if l.any (fun x => x.userId = h.userId && x.symbol = h.symbol) then
    l.map (fun x => if x.userId = h.userId && x.symbol = h.symbol then h else x)
  else
    l ++ [h]

/-- `memoryStore.updatePortfolio(userId, symbol, quantity, price, orderType)`:
fetches (or freshly creates) the holding for the key, applies the fill
calculation, stores it back, and returns it. -/
def Store.updatePortfolio (st : Store) (userId symbol : String) (quantity price : ℚ)
    (orderType : OrderType) : Holding × Store :=
  let holding :=
    match st.portfolio.find? (fun h => h.userId = userId && h.symbol = symbol) with
    | some h => h
    | none => emptyHolding userId symbol
  let h' := applyFillToHolding holding quantity price orderType
  (h', { st with portfolio := setHolding st.portfolio h' })

/-- `memoryStore.getPortfolio(userId)` restricted to what the services
consume: the user's holdings with strictly positive quantity.  (The
read-time enrichment with current price and returns copies `quantity`
and `symbol` unchanged, so it is dropped.) -/
def Store.getPortfolio (st : Store) (userId : String) : List Holding :=
  st.portfolio.filter (fun h => h.userId = userId && decide (0 < h.quantity))

/-- The error kinds raised by the service layer via `AppError`; each
constructor stands for one of the distinct `AppError` messages of the
source. -/
inductive SvcError where
  | invalidSymbol (symbol : String)
  | insufficientHoldings (available required : ℚ)
  | notFound (symbol : String)
  | badRequest (message : String)
deriving DecidableEq, Repr

/-- `instrumentService.validateInstrument(symbol)`. -/
def validateInstrument (st : Store) (symbol : String) : Bool :=
  (st.getInstrumentBySymbol symbol).isSome

/-- `instrumentService.getCurrentPrice(symbol)`: the stored last traded
price, or a NotFound error for an unknown symbol. -/
def getCurrentPrice (st : Store) (symbol : String) : Except SvcError ℚ :=
  match st.getInstrumentBySymbol symbol with
  | some i => Except.ok i.lastTradedPrice
  | none => Except.error (SvcError.notFound symbol)

/-- `portfolioService.getHoldingBySymbol(userId, symbol)`: looks up the
symbol case-insensitively among the user's visible (quantity > 0)
holdings. -/
def getHoldingBySymbol (st : Store) (userId symbol : String) : Option Holding :=
  (st.getPortfolio userId).find? (fun h => jsToLower h.symbol = jsToLower symbol)

/-- The quantity the user currently holds of `symbol` as
`portfolioService.updatePortfolioAfterTrade` sees it
(`currentHolding ? currentHolding.quantity : 0`). -/
def heldQuantity (st : Store) (userId symbol : String) : ℚ :=
  match getHoldingBySymbol st userId symbol with
  | some h => h.quantity
  | none => 0

/-- `portfolioService.updatePortfolioAfterTrade(userId, symbol, quantity,
price, orderType)`.  Throws InvalidSymbol for an unknown instrument and,
for SELL, InsufficientHoldings when the visible held quantity is below
the requested one; both throws happen before the store mutation, so the
error carries the untouched input store. -/
def updatePortfolioAfterTrade (st : Store) (userId symbol : String) (quantity price : ℚ)
    (orderType : OrderType) : Except (SvcError × Store) (Holding × Store) :=
  if ¬ validateInstrument st symbol then
    Except.error (SvcError.invalidSymbol symbol, st)
  else if orderType = OrderType.SELL then
    match getHoldingBySymbol st userId symbol with
    | none => Except.error (SvcError.insufficientHoldings 0 quantity, st)
    | some currentHolding =>
      if currentHolding.quantity < quantity then
        Except.error (SvcError.insufficientHoldings currentHolding.quantity quantity, st)
      else
        Except.ok (st.updatePortfolio userId symbol quantity price orderType)
  else
    Except.ok (st.updatePortfolio userId symbol quantity price orderType)

/-- `tradeService.createTrade(tradeData)`: computes
`totalAmount = quantity * price` and appends the record. -/
def createTrade (st : Store) (userId orderId symbol : String) (orderType : OrderType)
    (quantity price : ℚ) : Trade × Store :=
  st.createTrade
    { orderId := orderId, userId := userId, symbol := symbol, orderType := orderType,
      quantity := quantity, price := price, totalAmount := quantity * price }

/-- `orderService.attemptOrderExecution(orderId)`, with the one
`Math.random()` draw of the execution-price calculation passed in as
`r`.  Returns the order when execution happened, `none` otherwise; the
surrounding `try/catch` converts any thrown error into a `none` result
while keeping every store mutation performed before the throw. -/
def attemptOrderExecution (st : Store) (orderId : String) (r : ℚ) : Option Order × Store :=
  match st.getOrderById orderId with
  | none => (none, st)
  | some order =>
    if order.status ≠ OrderStatus.PLACED then
      (none, st)
    else
      match getCurrentPrice st order.symbol with
      | Except.error _ => (none, st)
      | Except.ok currentPrice =>
        let canExec :=
          if order.orderStyle = OrderStyle.MARKET then true
          else canExecuteLimitOrder order currentPrice
        if ¬ canExec then
          (none, st)
        else
          let executionPrice := calculateExecutionPrice order currentPrice r
          let step1 := st.updateOrderStatus orderId OrderStatus.EXECUTED
            (some executionPrice) (some order.quantity)
          let executedOrder := step1.1
          let step2 := createTrade step1.2 order.userId order.id order.symbol
            order.orderType order.quantity executionPrice
          match updatePortfolioAfterTrade step2.2 order.userId order.symbol
              order.quantity executionPrice order.orderType with
          | Except.error e => (none, e.2)
          | Except.ok res => (executedOrder, res.2)

/-- `instrumentService.updatePrice(symbol, newPrice)`: delegates to the
store and throws NotFound when the store reports failure. -/
def updatePrice (st : Store) (symbol : String) (newPrice : ℚ) : Except (SvcError × Store) Store :=
  let res := st.updateInstrumentPrice symbol newPrice
  if res.1 then Except.ok res.2 else Except.error (SvcError.notFound symbol, res.2)

/-- `instrumentController.updatePrice`: rejects a missing or non-positive
body price with a 400 response before touching the service, then calls
`instrumentService.updatePrice` on the upper-cased symbol. -/
def controllerUpdatePrice (st : Store) (symbol : String) (price : Option ℚ) :
    Except (SvcError × Store) Store :=
  match price with
  | none => Except.error (SvcError.badRequest "Valid price is required", st)
  | some p =>
    if p ≤ 0 then Except.error (SvcError.badRequest "Valid price is required", st)
    else updatePrice st (jsToUpper symbol) p

/-- The price stored for a symbol, for stating what a price update did. -/
def getPriceOf (st : Store) (symbol : String) : Option ℚ :=
  (st.getInstrumentBySymbol symbol).map (fun i => i.lastTradedPrice)

/-- The five sample instruments seeded by
`memoryStore.initializeSampleData`. -/
def sampleInstruments : List Instrument :=
  [ { symbol := "RELIANCE", exchange := "NSE", instrumentType := "EQUITY",
      lastTradedPrice := 2450.75, companyName := "Reliance Industries Ltd" },
    { symbol := "TCS", exchange := "NSE", instrumentType := "EQUITY",
      lastTradedPrice := 3890.20, companyName := "Tata Consultancy Services Ltd" },
    { symbol := "INFY", exchange := "NSE", instrumentType := "EQUITY",
      lastTradedPrice := 1756.85, companyName := "Infosys Ltd" },
    { symbol := "HDFC", exchange := "NSE", instrumentType := "EQUITY",
      lastTradedPrice := 1642.30, companyName := "HDFC Bank Ltd" },
    { symbol := "ICICIBANK", exchange := "NSE", instrumentType := "EQUITY",
      lastTradedPrice := 1198.45, companyName := "ICICI Bank Ltd" } ]

/-- The store right after process start: sample instruments, no orders,
trades or holdings. -/
def initialStore : Store :=
  { instruments := sampleInstruments, orders := [], trades := [], portfolio := [] }

/-- The body of an order-placement request as it reaches the validation
middleware: raw strings for the enumerated fields, a JavaScript number
for the quantity (modelled as `ℚ`, so non-integers are representable),
and an optional price. -/
structure RawOrderRequest where
  symbol : String
  orderType : String
  orderStyle : String
  quantity : ℚ
  price : Option ℚ
deriving DecidableEq, Repr

/-- The Joi schema `schemas.createOrder` of `validation.js` as a
predicate: symbol length 1..20, orderType in BUY/SELL, orderStyle in
MARKET/LIMIT, quantity an integer in 1..10000, and price required
positive for LIMIT, optional but positive when present otherwise. -/
def createOrderValid (req : RawOrderRequest) : Bool :=
  (1 ≤ req.symbol.length && req.symbol.length ≤ 20) &&
  (req.orderType = "BUY" || req.orderType = "SELL") &&
  (req.orderStyle = "MARKET" || req.orderStyle = "LIMIT") &&
  (decide (req.quantity.den = 1) && decide (1 ≤ req.quantity) && decide (req.quantity ≤ 10000)) &&
  (if req.orderStyle = "LIMIT" then
     match req.price with
     | some p => decide (0 < p)
     | none => false
   else
     match req.price with
     | some p => decide (0 < p)
     | none => true)

/-- An HTTP-level rejection, as produced by the `validate` middleware
factory (`res.status(400).json({ error: 'Validation failed', ... })`). -/
structure HttpReject where
  status : Nat
  error : String
deriving DecidableEq, Repr

/-- The `validateCreateOrder` middleware: a request failing the schema
is answered with a 400 "Validation failed" response and never reaches
the order controller/service; a valid request is passed on. -/
def validateCreateOrder (req : RawOrderRequest) : Except HttpReject RawOrderRequest :=
  if createOrderValid req then Except.ok req
  else Except.error { status := 400, error := "Validation failed" }

/-- A sample LIMIT BUY order used to instantiate universally quantified
statements about the execution decision. -/
def sampleLimitBuy : Order :=
  { id := "order-1", userId := "user123", symbol := "RELIANCE",
    orderType := OrderType.BUY, orderStyle := OrderStyle.LIMIT,
    quantity := 10, price := some 100, status := OrderStatus.PLACED,
    executedPrice := none, executedQuantity := none }

/-- A sample MARKET BUY order used to instantiate universally quantified
statements about the execution price. -/
def sampleMarketBuy : Order :=
  { id := "order-2", userId := "user123", symbol := "RELIANCE",
    orderType := OrderType.BUY, orderStyle := OrderStyle.MARKET,
    quantity := 10, price := none, status := OrderStatus.PLACED,
    executedPrice := none, executedQuantity := none }

/-- C3: the execution-decision function judges a MARKET order always
executable, a LIMIT BUY executable iff the current price is at most the
limit price, and a LIMIT SELL executable iff the current price is at
least the limit price. -/
theorem canExecuteLimitOrder_spec (order : Order) (c p : ℚ) :
    (order.orderStyle = OrderStyle.MARKET → canExecuteLimitOrder order c = true) ∧
    (order.orderStyle = OrderStyle.LIMIT → order.orderType = OrderType.BUY →
      order.price = some p → (canExecuteLimitOrder order c = true ↔ c ≤ p)) ∧
    (order.orderStyle = OrderStyle.LIMIT → order.orderType = OrderType.SELL →
      order.price = some p → (canExecuteLimitOrder order c = true ↔ p ≤ c)) := by
  refine ⟨fun hs => ?_, fun hs ht hp => ?_, fun hs ht hp => ?_⟩
  · simp [canExecuteLimitOrder, hs]
  · simp [canExecuteLimitOrder, hs, ht, hp, jsLeOpt]
  · simp [canExecuteLimitOrder, hs, ht, hp, jsGeOpt]

/-- C3 witness: a LIMIT BUY with limit 100 is executable at market
price 90. -/
theorem canExecuteLimitOrder_spec_witness :
    canExecuteLimitOrder sampleLimitBuy 90 = true :=
  ((canExecuteLimitOrder_spec sampleLimitBuy 90 100).2.1 rfl rfl rfl).mpr (by norm_num)

/-- C4: a BUY fill of quantity q at price p moves a holding with prior
quantity Q and cost basis C to cost basis C + q*p, quantity Q + q, and
average price (C + q*p) / (Q + q); concretely, BUY 10 @ 100 then
BUY 10 @ 120 yields quantity 20 and average price 110. -/
theorem updatePortfolio_buy_spec (h : Holding) (q p : ℚ) :
    (applyFillToHolding h q p OrderType.BUY).totalInvestment = h.totalInvestment + q * p ∧
    (applyFillToHolding h q p OrderType.BUY).quantity = h.quantity + q ∧
    (applyFillToHolding h q p OrderType.BUY).averagePrice =
      (h.totalInvestment + q * p) / (h.quantity + q) ∧
    (applyFills (emptyHolding "user123" "RELIANCE")
      [⟨OrderType.BUY, 10, 100⟩, ⟨OrderType.BUY, 10, 120⟩]).quantity = 20 ∧
    (applyFills (emptyHolding "user123" "RELIANCE")
      [⟨OrderType.BUY, 10, 100⟩, ⟨OrderType.BUY, 10, 120⟩]).averagePrice = 110 := by
  refine ⟨rfl, rfl, rfl, ?_, ?_⟩ <;>
    norm_num [applyFills, applyFillToHolding, emptyHolding]

/-- C7: a LIMIT order's execution price is exactly its limit price; a
MARKET order's execution price is the current price adjusted by a
symmetric slippage of magnitude at most 0.1% (for any random draw
r in [0,1]) and rounded to 2 decimal places. -/
theorem calculateExecutionPrice_spec (order : Order) (c r p : ℚ) :
    (order.orderStyle = OrderStyle.LIMIT → order.price = some p →
      calculateExecutionPrice order c r = p) ∧
    (order.orderStyle = OrderStyle.MARKET → 0 ≤ r → r ≤ 1 →
      ∃ s : ℚ, |s| ≤ 1/1000 ∧ calculateExecutionPrice order c r = round2 (c * (1 + s))) := by
  constructor
  · intro hs hp
    simp [calculateExecutionPrice, hs, hp]
  · intro hs h0 h1
    refine ⟨(r - 1/2) * (2/1000), ?_, by simp [calculateExecutionPrice, hs]⟩
    have habs : |r - 1/2| ≤ 1/2 := abs_le.mpr ⟨by linarith, by linarith⟩
    have h2 : |(r - 1/2) * (2/1000)| = |r - 1/2| * (2/1000) := by
      rw [abs_mul]
      norm_num
    rw [h2]
    nlinarith [abs_nonneg (r - 1/2)]

/-- C7 witness: at the midpoint random draw the MARKET execution price
is the rounded current price with some slippage of magnitude at most
0.1%. -/
theorem calculateExecutionPrice_spec_witness :
    ∃ s : ℚ, |s| ≤ 1/1000 ∧
      calculateExecutionPrice sampleMarketBuy 2450.75 (1/2) = round2 (2450.75 * (1 + s)) :=
  (calculateExecutionPrice_spec sampleMarketBuy 2450.75 (1/2) 0).2 rfl
    (by norm_num) (by norm_num)

/-- The invariant the SELL branch of `updatePortfolio` maintains:
nonnegative quantity, and a zero quantity forces zero cost basis and
zero average price. -/
def ZeroResetInv (h : Holding) : Prop :=
  0 ≤ h.quantity ∧ (h.quantity = 0 → h.totalInvestment = 0 ∧ h.averagePrice = 0)

/-- One fill with positive quantity preserves `ZeroResetInv`. -/
lemma applyFillToHolding_zeroResetInv (h : Holding) (q p : ℚ) (ot : OrderType)
    (hq : 0 < q) (hinv : ZeroResetInv h) :
    ZeroResetInv (applyFillToHolding h q p ot) := by
  obtain ⟨h1, _⟩ := hinv
  cases ot with
  | BUY =>
    refine ⟨by simp only [applyFillToHolding]; linarith, ?_⟩
    intro h0
    simp only [applyFillToHolding] at h0
    linarith
  | SELL =>
    by_cases hz : max 0 (h.quantity - q) = 0
    · refine ⟨?_, fun _ => ⟨?_, ?_⟩⟩ <;> simp [applyFillToHolding, hz]
    · constructor
      · simp only [applyFillToHolding, if_neg hz]
        exact le_max_left 0 _
      · intro hcon
        simp only [applyFillToHolding, if_neg hz] at hcon
        exact absurd hcon hz

/-- A sequence of positive-quantity fills preserves `ZeroResetInv`. -/
lemma applyFills_zeroResetInv (fills : List Fill) : ∀ h : Holding,
    (∀ f ∈ fills, 0 < f.quantity) → ZeroResetInv h →
    ZeroResetInv (applyFills h fills) := by
  induction fills with
  | nil => intro h _ hinv; simpa [applyFills] using hinv
  | cons f fs ih =>
    intro h hall hinv
    have hstep : applyFills h (f :: fs) =
        applyFills (applyFillToHolding h f.quantity f.price f.orderType) fs := rfl
    rw [hstep]
    exact ih _ (fun g hg => hall g (List.mem_cons_of_mem _ hg))
      (applyFillToHolding_zeroResetInv h f.quantity f.price f.orderType
        (hall f (List.mem_cons_self _ _)) hinv)

/-- C6: after any sequence of positive-quantity fills the holding's
quantity is nonnegative, and a zero quantity comes with zero cost basis
and zero average price. -/
theorem portfolio_invariant_spec (fills : List Fill) (u s : String)
    (hq : ∀ f ∈ fills, 0 < f.quantity) :
    0 ≤ (applyFills (emptyHolding u s) fills).quantity ∧
    ((applyFills (emptyHolding u s) fills).quantity = 0 →
      (applyFills (emptyHolding u s) fills).totalInvestment = 0 ∧
      (applyFills (emptyHolding u s) fills).averagePrice = 0) :=
  applyFills_zeroResetInv fills (emptyHolding u s) hq ⟨le_refl 0, fun _ => ⟨rfl, rfl⟩⟩

/-- C6 witness: buying 10 and selling all 10 leaves quantity 0 with cost
basis and average price both reset to 0. -/
theorem portfolio_invariant_spec_witness :
    0 ≤ (applyFills (emptyHolding "user123" "RELIANCE")
        [⟨OrderType.BUY, 10, 100⟩, ⟨OrderType.SELL, 10, 120⟩]).quantity ∧
    ((applyFills (emptyHolding "user123" "RELIANCE")
        [⟨OrderType.BUY, 10, 100⟩, ⟨OrderType.SELL, 10, 120⟩]).quantity = 0 →
      (applyFills (emptyHolding "user123" "RELIANCE")
        [⟨OrderType.BUY, 10, 100⟩, ⟨OrderType.SELL, 10, 120⟩]).totalInvestment = 0 ∧
      (applyFills (emptyHolding "user123" "RELIANCE")
        [⟨OrderType.BUY, 10, 100⟩, ⟨OrderType.SELL, 10, 120⟩]).averagePrice = 0) :=
  portfolio_invariant_spec [⟨OrderType.BUY, 10, 100⟩, ⟨OrderType.SELL, 10, 120⟩]
    "user123" "RELIANCE" (by intro f hf; fin_cases hf <;> norm_num)

/-- The cost-basis relation the code actually maintains: nonnegative
fields with `averagePrice * quantity ≤ totalInvestment` (a SELL that
does not empty the holding keeps both `totalInvestment` and
`averagePrice`, so the product can drop strictly below the basis). -/
def CostBasisInv (h : Holding) : Prop :=
  0 ≤ h.quantity ∧ 0 ≤ h.totalInvestment ∧ 0 ≤ h.averagePrice ∧
    h.averagePrice * h.quantity ≤ h.totalInvestment

/-- One fill with positive quantity and nonnegative price preserves
`CostBasisInv`. -/
lemma applyFillToHolding_costBasisInv (h : Holding) (q p : ℚ) (ot : OrderType)
    (hq : 0 < q) (hp : 0 ≤ p) (hinv : CostBasisInv h) :
    CostBasisInv (applyFillToHolding h q p ot) := by
  obtain ⟨h1, h2, h3, h4⟩ := hinv
  cases ot with
  | BUY =>
    have hqty : 0 < h.quantity + q := by linarith
    have hti : 0 ≤ h.totalInvestment + q * p := by positivity
    refine ⟨by simp only [applyFillToHolding]; linarith, ?_, ?_, ?_⟩ <;>
      simp only [applyFillToHolding]
    · exact hti
    · exact div_nonneg hti hqty.le
    · rw [div_mul_cancel₀ _ hqty.ne']
  | SELL =>
    by_cases hz : max 0 (h.quantity - q) = 0
    · refine ⟨?_, ?_, ?_, ?_⟩ <;> simp [applyFillToHolding, hz]
    · have hle : max 0 (h.quantity - q) ≤ h.quantity := max_le h1 (by linarith)
      refine ⟨?_, ?_, ?_, ?_⟩ <;> simp only [applyFillToHolding, if_neg hz]
      · exact le_max_left 0 _
      · exact h2
      · exact h3
      · exact le_trans (mul_le_mul_of_nonneg_left hle h3) h4

/-- A sequence of positive-quantity, nonnegative-price fills preserves
`CostBasisInv`. -/
lemma applyFills_costBasisInv (fills : List Fill) : ∀ h : Holding,
    (∀ f ∈ fills, 0 < f.quantity ∧ 0 ≤ f.price) → CostBasisInv h →
    CostBasisInv (applyFills h fills) := by
  induction fills with
  | nil => intro h _ hinv; simpa [applyFills] using hinv
  | cons f fs ih =>
    intro h hall hinv
    have hstep : applyFills h (f :: fs) =
        applyFills (applyFillToHolding h f.quantity f.price f.orderType) fs := rfl
    rw [hstep]
    exact ih _ (fun g hg => hall g (List.mem_cons_of_mem _ hg))
      (applyFillToHolding_costBasisInv h f.quantity f.price f.orderType
        (hall f (List.mem_cons_self _ _)).1 (hall f (List.mem_cons_self _ _)).2 hinv)

/-- C2 counterexample: BUY 10 @ 100 then SELL 5 leaves quantity 5 with
`totalInvestment` still 1000 and `averagePrice` 100, so the claimed
identity averagePrice = totalInvestment / quantity (which would be 200)
fails while the quantity is positive. -/
theorem avgPrice_claim_counterexample :
    0 < (applyFills (emptyHolding "user123" "RELIANCE")
        [⟨OrderType.BUY, 10, 100⟩, ⟨OrderType.SELL, 5, 100⟩]).quantity ∧
    (applyFills (emptyHolding "user123" "RELIANCE")
        [⟨OrderType.BUY, 10, 100⟩, ⟨OrderType.SELL, 5, 100⟩]).averagePrice ≠
      (applyFills (emptyHolding "user123" "RELIANCE")
          [⟨OrderType.BUY, 10, 100⟩, ⟨OrderType.SELL, 5, 100⟩]).totalInvestment /
        (applyFills (emptyHolding "user123" "RELIANCE")
          [⟨OrderType.BUY, 10, 100⟩, ⟨OrderType.SELL, 5, 100⟩]).quantity := by
  constructor <;> norm_num [applyFills, applyFillToHolding, emptyHolding]

/-- C2 (amended): for every holding reached by positive-quantity,
nonnegative-price fills, `averagePrice * quantity ≤ totalInvestment`
always holds, and the exact identity
averagePrice = totalInvestment / quantity holds whenever the final fill
was a BUY (only partial SELLs break the equality, since they keep both
the cost basis and the average price unchanged). -/
theorem avgPrice_amended_spec (fills : List Fill) (u s : String)
    (hf : ∀ f ∈ fills, 0 < f.quantity ∧ 0 ≤ f.price) :
    (applyFills (emptyHolding u s) fills).averagePrice *
        (applyFills (emptyHolding u s) fills).quantity ≤
      (applyFills (emptyHolding u s) fills).totalInvestment ∧
    (∀ (fs : List Fill) (g : Fill), fills = fs ++ [g] → g.orderType = OrderType.BUY →
      (applyFills (emptyHolding u s) fills).averagePrice =
        (applyFills (emptyHolding u s) fills).totalInvestment /
          (applyFills (emptyHolding u s) fills).quantity) := by
  constructor
  · exact (applyFills_costBasisInv fills (emptyHolding u s) hf
      ⟨le_refl 0, le_refl 0, le_refl 0, by simp [emptyHolding]⟩).2.2.2
  · intro fs g hsplit hbuy
    subst hsplit
    rcases g with ⟨ot, q, p⟩
    cases hbuy
    simp [applyFills, List.foldl_append, applyFillToHolding]

/-- C2 witness: a single BUY of 10 @ 100 satisfies both the inequality
and, being a final BUY, the exact average-price identity. -/
theorem avgPrice_amended_spec_witness :
    (applyFills (emptyHolding "user123" "RELIANCE")
        [⟨OrderType.BUY, 10, 100⟩]).averagePrice *
        (applyFills (emptyHolding "user123" "RELIANCE")
          [⟨OrderType.BUY, 10, 100⟩]).quantity ≤
      (applyFills (emptyHolding "user123" "RELIANCE")
        [⟨OrderType.BUY, 10, 100⟩]).totalInvestment ∧
    (applyFills (emptyHolding "user123" "RELIANCE")
        [⟨OrderType.BUY, 10, 100⟩]).averagePrice =
      (applyFills (emptyHolding "user123" "RELIANCE")
          [⟨OrderType.BUY, 10, 100⟩]).totalInvestment /
        (applyFills (emptyHolding "user123" "RELIANCE")
          [⟨OrderType.BUY, 10, 100⟩]).quantity := by
  have h := avgPrice_amended_spec [⟨OrderType.BUY, 10, 100⟩] "user123" "RELIANCE"
    (by intro f hf; fin_cases hf; norm_num)
  exact ⟨h.1, h.2 [] ⟨OrderType.BUY, 10, 100⟩ rfl rfl⟩

/-- C5: a SELL fill asking for more than the user's visible held
quantity of a (known) symbol makes `updatePortfolioAfterTrade` fail with
the InsufficientHoldings error, and the error carries the input store
untouched (the throw happens before any mutation). -/
theorem updatePortfolioAfterTrade_insufficient (st : Store) (userId symbol : String) (q p : ℚ)
    (hins : validateInstrument st symbol = true)
    (hq : heldQuantity st userId symbol < q) :
    updatePortfolioAfterTrade st userId symbol q p OrderType.SELL =
      Except.error (SvcError.insufficientHoldings (heldQuantity st userId symbol) q, st) := by
  cases hh : getHoldingBySymbol st userId symbol with
  | none => simp [updatePortfolioAfterTrade, hins, hh, heldQuantity]
  | some ch =>
    have hq' : ch.quantity < q := by simpa [heldQuantity, hh] using hq
    simp [updatePortfolioAfterTrade, hins, hh, heldQuantity, hq']

/-- C5 witness: with an empty portfolio, selling 5 RELIANCE fails with
InsufficientHoldings (available 0, required 5) and the store is
unchanged. -/
theorem updatePortfolioAfterTrade_insufficient_witness :
    updatePortfolioAfterTrade initialStore "user123" "RELIANCE" 5 100 OrderType.SELL =
      Except.error (SvcError.insufficientHoldings 0 5, initialStore) := by
  have h := updatePortfolioAfterTrade_insufficient initialStore "user123" "RELIANCE" 5 100
    (by decide) (by decide)
  have hzero : heldQuantity initialStore "user123" "RELIANCE" = 0 := rfl
  rw [hzero] at h
  exact h

/-- An execution attempt on an absent or non-PLACED order returns
"nothing executed" and leaves the store untouched. -/
lemma attemptOrderExecution_not_placed (st : Store) (orderId : String) (r : ℚ)
    (h : ∀ o, st.getOrderById orderId = some o → o.status ≠ OrderStatus.PLACED) :
    attemptOrderExecution st orderId r = (none, st) := by
  cases hO : st.getOrderById orderId with
  | none => simp [attemptOrderExecution, hO]
  | some o => simp [attemptOrderExecution, hO, h o hO]

/-- C8: attempting execution of an order that is absent or not in
PLACED status reports no execution and leaves the store unchanged, and
repeating the call gives the same result again. -/
theorem attemptOrderExecution_noop (st : Store) (orderId : String) (r r2 : ℚ)
    (h : ∀ o, st.getOrderById orderId = some o → o.status ≠ OrderStatus.PLACED) :
    attemptOrderExecution st orderId r = (none, st) ∧
    attemptOrderExecution (attemptOrderExecution st orderId r).2 orderId r2 = (none, st) := by
  have h1 := attemptOrderExecution_not_placed st orderId r h
  refine ⟨h1, ?_⟩
  rw [h1]
  exact attemptOrderExecution_not_placed st orderId r2 h

/-- An already-cancelled order, for exercising the no-op branch of the
execution attempt. -/
def cancelledOrder : Order :=
  { id := "order-3", userId := "user123", symbol := "RELIANCE",
    orderType := OrderType.BUY, orderStyle := OrderStyle.MARKET,
    quantity := 10, price := none, status := OrderStatus.CANCELLED,
    executedPrice := none, executedQuantity := none }

/-- The initial store holding one CANCELLED order. -/
def storeWithCancelled : Store := { initialStore with orders := [cancelledOrder] }

/-- C8 witness: attempting execution of a CANCELLED order twice changes
nothing either time. -/
theorem attemptOrderExecution_noop_witness :
    attemptOrderExecution storeWithCancelled "order-3" (1/2) = (none, storeWithCancelled) ∧
    attemptOrderExecution (attemptOrderExecution storeWithCancelled "order-3" (1/2)).2
      "order-3" (1/2) = (none, storeWithCancelled) := by
  refine attemptOrderExecution_noop storeWithCancelled "order-3" (1/2) (1/2) ?_
  intro o ho
  have hrfl : Store.getOrderById storeWithCancelled "order-3" = some cancelledOrder := rfl
  rw [hrfl] at ho
  cases Option.some.inj ho
  decide

/-- A PLACED MARKET SELL order for a user who holds nothing: the
execution attempt's portfolio update is bound to fail. -/
def sellOrder : Order :=
  { id := "order-sell", userId := "user123", symbol := "RELIANCE",
    orderType := OrderType.SELL, orderStyle := OrderStyle.MARKET,
    quantity := 10, price := none, status := OrderStatus.PLACED,
    executedPrice := none, executedQuantity := none }

/-- The initial store holding only `sellOrder` and an empty portfolio. -/
def sellStore : Store := { initialStore with orders := [sellOrder] }

/-- C1 evaluation: executing a PLACED MARKET SELL with no holdings, the
portfolio update fails, but the attempt still leaves the order in
EXECUTED status (not PLACED), keeps the created trade record, leaves the
portfolio not updated, and reports `none` instead of surfacing the
error — the partial state the specification forbids. -/
theorem attemptOrderExecution_partial_state :
    (attemptOrderExecution sellStore "order-sell" (1/2)).1 = none ∧
    ((attemptOrderExecution sellStore "order-sell" (1/2)).2.getOrderById "order-sell").map
        Order.status = some OrderStatus.EXECUTED ∧
    (attemptOrderExecution sellStore "order-sell" (1/2)).2.trades.length = 1 ∧
    (attemptOrderExecution sellStore "order-sell" (1/2)).2.portfolio = [] := by
  refine ⟨?_, ?_, ?_, ?_⟩ <;> decide

/-- Replacing the price of the instruments whose symbol is `sym` and
then looking `sym` up finds exactly the price-updated version of the
instrument found before the replacement. -/
lemma find?_replacePrice (l : List Instrument) (sym : String) (p : ℚ) :
    (l.map (fun i => if i.symbol = sym then { i with lastTradedPrice := p } else i)).find?
        (fun i => i.symbol = sym) =
      (l.find? (fun i => i.symbol = sym)).map
        (fun i => if i.symbol = sym then { i with lastTradedPrice := p } else i) := by
  induction l with
  | nil => rfl
  | cons a l ih =>
    by_cases ha : a.symbol = sym
    · simp [List.find?_cons, ha]
    · simp [List.find?_cons, ha, ih]

/-- C9: the price-update pipeline (controller, service, store) replaces
the stored price of a known symbol when the new price is positive;
fails with NotFound for an unknown symbol, leaving the store unchanged;
and rejects any non-positive (or missing) price with a 400 response
before touching anything. -/
theorem updatePrice_endpoint_spec (st : Store) (symbol : String) (p : ℚ) :
    (0 < p → validateInstrument st (jsToUpper symbol) = true →
      ∃ st', controllerUpdatePrice st symbol (some p) = Except.ok st' ∧
        getPriceOf st' (jsToUpper symbol) = some p ∧
        st'.orders = st.orders ∧ st'.trades = st.trades ∧ st'.portfolio = st.portfolio) ∧
    (0 < p → validateInstrument st (jsToUpper symbol) = false →
      controllerUpdatePrice st symbol (some p) =
        Except.error (SvcError.notFound (jsToUpper symbol), st)) ∧
    (p ≤ 0 →
      controllerUpdatePrice st symbol (some p) =
        Except.error (SvcError.badRequest "Valid price is required", st)) ∧
    controllerUpdatePrice st symbol none =
      Except.error (SvcError.badRequest "Valid price is required", st) := by
  refine ⟨?_, ?_, fun hp => by simp [controllerUpdatePrice, hp], rfl⟩
  · intro hp hins
    obtain ⟨i, hi⟩ := Option.isSome_iff_exists.mp hins
    have hi' : st.instruments.find? (fun x => x.symbol = jsToUpper symbol) = some i := hi
    have hisym : i.symbol = jsToUpper symbol := by
      simpa using List.find?_some hi'
    refine ⟨{ st with instruments := st.instruments.map (fun x =>
        if x.symbol = jsToUpper symbol then { x with lastTradedPrice := p } else x) },
      ?_, ?_, rfl, rfl, rfl⟩
    · simp [controllerUpdatePrice, not_le.mpr hp, updatePrice,
        Store.updateInstrumentPrice, hi]
    · simp only [getPriceOf, Store.getInstrumentBySymbol, find?_replacePrice]
      rw [hi']
      simp [hisym]
  · intro hp hins
    have hnone : st.getInstrumentBySymbol (jsToUpper symbol) = none := by
      cases hoc : st.getInstrumentBySymbol (jsToUpper symbol) with
      | none => rfl
      | some i =>
        rw [validateInstrument, hoc] at hins
        exact Bool.noConfusion hins
    simp [controllerUpdatePrice, not_le.mpr hp, updatePrice,
      Store.updateInstrumentPrice, hnone]

/-- C9 witness: updating reliance to 2500 succeeds and stores 2500;
updating an unknown symbol fails with NotFound leaving the store
unchanged; a non-positive price is rejected with the 400 message. -/
theorem updatePrice_endpoint_spec_witness :
    (∃ st', controllerUpdatePrice initialStore "reliance" (some 2500) = Except.ok st' ∧
      getPriceOf st' (jsToUpper "reliance") = some 2500 ∧
      st'.orders = initialStore.orders ∧ st'.trades = initialStore.trades ∧
      st'.portfolio = initialStore.portfolio) ∧
    controllerUpdatePrice initialStore "foo" (some 2500) =
      Except.error (SvcError.notFound (jsToUpper "foo"), initialStore) ∧
    controllerUpdatePrice initialStore "reliance" (some (-1)) =
      Except.error (SvcError.badRequest "Valid price is required", initialStore) :=
  ⟨(updatePrice_endpoint_spec initialStore "reliance" 2500).1 (by norm_num) (by decide),
   (updatePrice_endpoint_spec initialStore "foo" 2500).2.1 (by norm_num) (by decide),
   (updatePrice_endpoint_spec initialStore "reliance" (-1)).2.2.1 (by norm_num)⟩

/-- C10: a placement request whose quantity is not an integer in
1..10000, whose orderType is not BUY/SELL, whose orderStyle is not
MARKET/LIMIT, or which asks LIMIT without a positive price, is rejected
by the validation middleware with a 400 "Validation failed" response
(so the order service is never invoked). -/
theorem createOrder_validation_spec (req : RawOrderRequest)
    (h : ¬(req.quantity.den = 1 ∧ 1 ≤ req.quantity ∧ req.quantity ≤ 10000) ∨
         ¬(req.orderType = "BUY" ∨ req.orderType = "SELL") ∨
         ¬(req.orderStyle = "MARKET" ∨ req.orderStyle = "LIMIT") ∨
         (req.orderStyle = "LIMIT" ∧ ∀ q, req.price = some q → q ≤ 0)) :
    validateCreateOrder req = Except.error { status := 400, error := "Validation failed" } := by
  suffices hv : ¬ (createOrderValid req = true) by
    simp [validateCreateOrder, hv]
  intro ht
  simp only [createOrderValid, Bool.and_eq_true, Bool.or_eq_true,
    decide_eq_true_eq] at ht
  obtain ⟨⟨⟨⟨-, htype⟩, hstyle⟩, ⟨hq1, hq2⟩, hq3⟩, hprice⟩ := ht
  rcases h with h | h | h | ⟨hLim, hbad⟩
  · exact h ⟨hq1, hq2, hq3⟩
  · exact h htype
  · exact h hstyle
  · rw [if_pos hLim] at hprice
    cases hp : req.price with
    | none => rw [hp] at hprice; exact Bool.noConfusion hprice
    | some q =>
      rw [hp] at hprice
      have : (0 : ℚ) < q := by simpa using hprice
      exact absurd (hbad q hp) (not_le.mpr this)

/-- A request exceeding the maximum order quantity of 10000. -/
def overSizedRequest : RawOrderRequest :=
  { symbol := "RELIANCE", orderType := "BUY", orderStyle := "MARKET",
    quantity := 10001, price := none }

/-- C10 witness: a BUY MARKET request for 10001 shares is rejected with
the 400 validation response. -/
theorem createOrder_validation_spec_witness :
    validateCreateOrder overSizedRequest =
      Except.error { status := 400, error := "Validation failed" } :=
  createOrder_validation_spec overSizedRequest
    (Or.inl (by intro hcon; exact absurd hcon.2.2 (by norm_num [overSizedRequest])))

end Bajaj
